import Mathlib

/-! Verification development for the STREAM memory-bandwidth benchmark
    (stream.c, revision 5.10, with device-mapping extensions).

    The four kernels, the warm-up, the validator's scalar replay, the
    reporter's bandwidth formula, the page-size rounding of buffer sizes
    and offsets, the clock-granularity calibrator, and the control flow
    of main (device open, mapping, teardown, exit codes) are embedded as
    executable Lean definitions, and the spec's properties are proved
    about them. -/

namespace StreamBench

/-- Abstract arithmetic for the element type STREAM_TYPE: the kernels and the
validator use only addition, multiplication, and the literals 0.0, 1.0, 2.0,
3.0, so both are embedded over an arbitrary interpretation of those
operations; instantiating with IEEE operations shows the executor and the
validator perform identical operation sequences (hence agree bit-for-bit). -/
structure FPOps (T : Type) where
  add : T → T → T
  mul : T → T → T
  lit0 : T
  lit1 : T
  lit2 : T
  lit3 : T

/-- The three benchmark arrays a, b, c. -/
structure StreamState (T : Type) where
  a : List T
  b : List T
  c : List T

/-- Initialization loop in main: a[j] = 1.0; b[j] = 2.0; c[j] = 0.0. -/
def initArrays {T : Type} (F : FPOps T) (n : Nat) : StreamState T :=
  ⟨List.replicate n F.lit1, List.replicate n F.lit2, List.replicate n F.lit0⟩

/-- Warm-up loop in main: a[j] = 2.0E0 * a[j]. -/
def warmup {T : Type} (F : FPOps T) (s : StreamState T) : StreamState T :=
  { s with a := s.a.map (fun x => F.mul F.lit2 x) }

/-- Copy kernel: c[j] = a[j]. -/
def copyKernel {T : Type} (s : StreamState T) : StreamState T :=
  { s with c := s.a.map (fun x => x) }

/-- Scale kernel: b[j] = scalar * c[j]. -/
def scaleKernel {T : Type} (F : FPOps T) (scalar : T) (s : StreamState T) :
    StreamState T :=
  { s with b := s.c.map (fun x => F.mul scalar x) }

/-- Add kernel: c[j] = a[j] + b[j]. -/
def addKernel {T : Type} (F : FPOps T) (s : StreamState T) : StreamState T :=
  { s with c := List.zipWith F.add s.a s.b }

/-- Triad kernel: a[j] = b[j] + scalar * c[j]. -/
def triadKernel {T : Type} (F : FPOps T) (scalar : T) (s : StreamState T) :
    StreamState T :=
  { s with a := List.zipWith (fun bj cj => F.add bj (F.mul scalar cj)) s.b s.c }

/-- One round of the main timing loop: Copy, Scale, Add, Triad in this order. -/
def streamRound {T : Type} (F : FPOps T) (scalar : T) (s : StreamState T) :
    StreamState T :=
  triadKernel F scalar (addKernel F (scaleKernel F scalar (copyKernel s)))

/-- The executor: initialization, warm-up, then R rounds with scalar = 3.0. -/
def streamRun {T : Type} (F : FPOps T) (n R : Nat) : StreamState T :=
  (streamRound F F.lit3)^[R] (warmup F (initArrays F n))

/-- The validator's scalar state (aj, bj, cj) in checkSTREAMresults. -/
structure ScalarState (T : Type) where
  aj : T
  bj : T
  cj : T

/-- Validator: reproduce initialization, aj = 1.0; bj = 2.0; cj = 0.0. -/
def scalarInit {T : Type} (F : FPOps T) : ScalarState T :=
  ⟨F.lit1, F.lit2, F.lit0⟩

/-- Validator: a[] is modified during the timing check, aj = 2.0E0 * aj. -/
def scalarWarmup {T : Type} (F : FPOps T) (s : ScalarState T) : ScalarState T :=
  { s with aj := F.mul F.lit2 s.aj }

/-- Validator, one replayed round:
cj = aj; bj = scalar*cj; cj = aj+bj; aj = bj+scalar*cj. -/
def scalarRound {T : Type} (F : FPOps T) (scalar : T) (s : ScalarState T) :
    ScalarState T :=
  let cj1 := s.aj
  let bj1 := F.mul scalar cj1
  let cj2 := F.add s.aj bj1
  let aj1 := F.add bj1 (F.mul scalar cj2)
  ⟨aj1, bj1, cj2⟩

/-- Validator replay: NTIMES rounds with scalar = 3.0 after init and warm-up. -/
def scalarReplay {T : Type} (F : FPOps T) (R : Nat) : ScalarState T :=
  (scalarRound F F.lit3)^[R] (scalarWarmup F (scalarInit F))

/-- A stream state in which each array is constantly one scalar value. -/
def replicateState {T : Type} (n : Nat) (x : ScalarState T) : StreamState T :=
  ⟨List.replicate n x.aj, List.replicate n x.bj, List.replicate n x.cj⟩

/-- Exact integer arithmetic: one interpretation of the element operations
(all values reached in small runs are integers, so this also exhibits the
exact values the IEEE computation produces). -/
def intOps : FPOps Int :=
  ⟨fun x y => x + y, fun x y => x * y, 0, 1, 2, 3⟩

/-- A list is uniform when every pair of its elements is equal. -/
def UniformList {T : Type} (l : List T) : Prop :=
  ∀ x ∈ l, ∀ y ∈ l, x = y

/-- All three arrays are uniform. -/
def UniformState {T : Type} (s : StreamState T) : Prop :=
  UniformList s.a ∧ UniformList s.b ∧ UniformList s.c

instance {T : Type} [DecidableEq T] (l : List T) : Decidable (UniformList l) := by
  unfold UniformList
  infer_instance

instance {T : Type} [DecidableEq T] (s : StreamState T) :
    Decidable (UniformState s) := by
  unfold UniformState
  infer_instance

/-- Exact rational interpretation of the element operations. -/
def ratOps : FPOps ℚ :=
  ⟨fun x y => x + y, fun x y => x * y, 0, 1, 2, 3⟩

/-- The abs macro in stream.c: ((a) >= 0 ? (a) : -(a)). -/
def streamAbs (x : ℚ) : ℚ := if x ≥ 0 then x else -x

/-- Outcome of checkSTREAMresults: the tolerance used, the per-array failure
flags, the per-array count of offending elements (printed only for a failed
array), and the err counter (the run validates exactly when err = 0). -/
structure CheckResult where
  epsilon : ℚ
  aFailed : Bool
  bFailed : Bool
  cFailed : Bool
  aErrCount : Option Nat
  bErrCount : Option Nat
  cErrCount : Option Nat
  err : Nat

/-- checkSTREAMresults over exact rational arithmetic: replay aj, bj, cj for
R = NTIMES rounds, accumulate per-array absolute deviations, average over
n = stream_array_size, select epsilon from sizeof(STREAM_TYPE), flag each
array whose average relative error exceeds epsilon, and for a flagged array
count the elements whose individual relative deviation exceeds epsilon. -/
def checkSTREAMresults (bytesPerWord R n : Nat) (a b c : List ℚ) : CheckResult :=
  let e := scalarReplay ratOps R
  let aSumErr := a.foldl (fun acc x => acc + streamAbs (x - e.aj)) 0
  let bSumErr := b.foldl (fun acc x => acc + streamAbs (x - e.bj)) 0
  let cSumErr := c.foldl (fun acc x => acc + streamAbs (x - e.cj)) 0
  let aAvgErr := aSumErr / (n : ℚ)
  let bAvgErr := bSumErr / (n : ℚ)
  let cAvgErr := cSumErr / (n : ℚ)
  let epsilon : ℚ :=
    if bytesPerWord = 4 then 1 / 1000000
    else if bytesPerWord = 8 then 1 / 10000000000000
    else 1 / 1000000
  let aFailed := decide (streamAbs (aAvgErr / e.aj) > epsilon)
  let bFailed := decide (streamAbs (bAvgErr / e.bj) > epsilon)
  let cFailed := decide (streamAbs (cAvgErr / e.cj) > epsilon)
  let aErrCount := if aFailed then
    some (a.countP (fun x => decide (streamAbs (x / e.aj - 1) > epsilon))) else none
  let bErrCount := if bFailed then
    some (b.countP (fun x => decide (streamAbs (x / e.bj - 1) > epsilon))) else none
  let cErrCount := if cFailed then
    some (c.countP (fun x => decide (streamAbs (x / e.cj - 1) > epsilon))) else none
  let err := (if aFailed then 1 else 0) + (if bFailed then 1 else 0) +
    (if cFailed then 1 else 0)
  ⟨epsilon, aFailed, bFailed, cFailed, aErrCount, bErrCount, cErrCount, err⟩

/-- FLT_MAX, the initial value of the mintime[] entries. -/
def FLT_MAX : ℚ := 340282346638528859811704183484516925440

/-- mintime[j] after the summary loop: MIN folded over repetitions
1..NTIMES-1 (the first repetition is skipped), starting from FLT_MAX;
times holds the per-repetition timings of one kernel. -/
def minTime (times : List ℚ) : ℚ := (times.drop 1).foldl min FLT_MAX

/-- bytes[] after the runtime override in main: 2 * buffer_size for Copy and
Scale, 3 * buffer_size for Add and Triad. -/
def streamBytes (k : Fin 4) (bufferBytes : ℚ) : ℚ :=
  match k with
  | 0 => 2 * bufferBytes
  | 1 => 2 * bufferBytes
  | 2 => 3 * bufferBytes
  | 3 => 3 * bufferBytes

/-- The printed Best Rate MB/s column: 1.0E-06 * bytes[j] / mintime[j]. -/
def bandwidth (k : Fin 4) (bufferBytes : ℚ) (times : List ℚ) : ℚ :=
  1 / 1000000 * streamBytes k bufferBytes / minTime times

/-- The page rounding of the requested buffer size in main:
buffer_size = (buffer_size+4095)&(~0xFFF), computed on ssize_t. -/
def pageRound (s : Int) : Int := Int.land (s + 4095) (-4096)

/-- The page truncation of the mapping offset in main:
offset = offset & (~0xFFF), computed on ssize_t. -/
def pageTrunc (o : Int) : Int := Int.land o (-4096)

/-- The NULL pointer. -/
def NULL : Int := 0

/-- mmap's failure return value (void *)-1; note it is not NULL. -/
def MAP_FAILED : Int := -1

/-- The default buffer size (STREAM_ARRAY_SIZE + OFFSET) * sizeof(STREAM_TYPE)
with the compiled defaults STREAM_ARRAY_SIZE = 10, OFFSET = 0, 8-byte
elements. -/
def defaultBufferBytes : Int := (10 + 0) * 8

/-- Environment of one invocation of main: the command-line values and the
results the operating system returns for each call site. nargs is argc - 1,
sizeArg is atoll(argv[1]), offArg is strtoll(argv[3], NULL, 0), openRes is
the descriptor from open(argv[2]), mmapRes i is the value returned by the
i-th mmap call, allocRes i the value returned by the i-th aligned_alloc
call, and fidGarbage is the indeterminate value of the uninitialized local
fid when no device argument was given. -/
structure Env where
  nargs : Nat
  sizeArg : Int
  offArg : Int
  openRes : Int
  mmapRes : Fin 3 → Int
  allocRes : Fin 3 → Int
  fidGarbage : Int

/-- Observable outcome of main: exit code, whether the open-failure early
return was taken, whether the kernels and the validation ran, the three
array pointers, the rounded buffer size, the offsets requested from mmap,
the pointers passed to munmap, whether close(fid) ran, and the pointers
passed to free (the source never calls free). -/
structure RunModel where
  exitCode : Int
  earlyReturn : Bool
  ranKernels : Bool
  validated : Bool
  aPtr : Int
  bPtr : Int
  cPtr : Int
  bufferSize : Int
  mapRequests : List Int
  munmapCalls : List Int
  closedFd : Bool
  freeCalls : List Int

/-- offset before defaulting: strtoll(argv[3], NULL, 0) if argc > 3, else
its initializer 0. -/
def offsetBase (e : Env) : Int := if 3 ≤ e.nargs then e.offArg else 0

/-- if (offset <= 0) offset = 0x100000000. -/
def offsetDefaulted (e : Env) : Int :=
  if offsetBase e ≤ 0 then 4294967296 else offsetBase e

/-- offset = offset & (~0xFFF). -/
def effectiveOffset (e : Env) : Int := pageTrunc (offsetDefaulted e)

/-- The control flow of main: size argument handling and page rounding;
device branch with offset handling, open with early return 0 on failure,
and three mmap calls whose results are installed unchecked; NULL-pointer
fallback to aligned_alloc; kernels and validation; teardown guarded by
argc > 1 (munmap on the three pointers and close(fid) when fid is
nonzero); final return 0. -/
def mainModel (e : Env) : RunModel :=
  let bs0 : Int :=
    if 1 ≤ e.nargs then (if e.sizeArg ≤ 0 then defaultBufferBytes else e.sizeArg)
    else defaultBufferBytes
  let bufferSize := pageRound bs0
  if 2 ≤ e.nargs then
    if e.openRes < 0 then
      { exitCode := 0, earlyReturn := true, ranKernels := false,
        validated := false, aPtr := NULL, bPtr := NULL, cPtr := NULL,
        bufferSize := bufferSize, mapRequests := [], munmapCalls := [],
        closedFd := false, freeCalls := [] }
    else
      let offset := effectiveOffset e
      let a0 := e.mmapRes 0
      let b0 := e.mmapRes 1
      let c0 := e.mmapRes 2
      let a := if a0 = NULL then e.allocRes 0 else a0
      let b := if b0 = NULL then e.allocRes 1 else b0
      let c := if c0 = NULL then e.allocRes 2 else c0
      { exitCode := 0, earlyReturn := false, ranKernels := true,
        validated := true, aPtr := a, bPtr := b, cPtr := c,
        bufferSize := bufferSize,
        mapRequests := [offset, offset + bufferSize, offset + 2 * bufferSize],
        munmapCalls := [a, b, c],
        closedFd := decide (¬ e.openRes = 0), freeCalls := [] }
  else
    let a := e.allocRes 0
    let b := e.allocRes 1
    let c := e.allocRes 2
    { exitCode := 0, earlyReturn := false, ranKernels := true,
      validated := true, aPtr := a, bPtr := b, cPtr := c,
      bufferSize := bufferSize, mapRequests := [],
      munmapCalls := if 1 ≤ e.nargs then [a, b, c] else [],
      closedFd := if 1 ≤ e.nargs then decide (¬ e.fidGarbage = 0) else false,
      freeCalls := [] }

/-- Concrete device environment for the C5 witness: two arguments (size 5000
and a device path), no offset argument, descriptor 5. -/
def envDevice : Env :=
  { nargs := 2, sizeArg := 5000, offArg := 0, openRes := 5,
    mmapRes := fun i => 4096 * ((i : Int) + 1), allocRes := fun _ => 0,
    fidGarbage := 0 }

/-- Concrete environment for the C7 witness: a device argument whose open
returns -1. -/
def envOpenFail : Env :=
  { nargs := 2, sizeArg := 100, offArg := 0, openRes := -1,
    mmapRes := fun _ => 0, allocRes := fun _ => 0, fidGarbage := 3 }

/-- Concrete environment in which all three mmap calls fail: device given,
open succeeds with descriptor 3, every mmap returns MAP_FAILED. -/
def envMapFail : Env :=
  { nargs := 2, sizeArg := 100, offArg := 0, openRes := 3,
    mmapRes := fun _ => MAP_FAILED, allocRes := fun i => 1000 + (i : Int),
    fidGarbage := 0 }

/-- Concrete environment for the C8 counterexample: a completed heap-backed
run with no command-line arguments. -/
def envHeapNoArgs : Env :=
  { nargs := 0, sizeArg := 0, offArg := 0, openRes := 0,
    mmapRes := fun _ => 0, allocRes := fun i => 2000 + (i : Int),
    fidGarbage := 7 }

/-- Concrete environment for the C8 witness: one argument, heap-backed. -/
def envHeapOneArg : Env :=
  { nargs := 1, sizeArg := 4096, offArg := 0, openRes := 0,
    mmapRes := fun _ => 0, allocRes := fun i => 3000 + (i : Int),
    fidGarbage := 7 }

/-- M, the number of clock samples checktick collects. -/
def M : Nat := 20

/-- The C cast (int)x applied to a real value: truncation toward zero. -/
def cTrunc (q : ℚ) : Int := if q < 0 then ⌈q⌉ else ⌊q⌋

/-- One execution of checktick's while loop: t1 is the reading taken at the
start of the spin; reads k is the value the k-th call of mysecond returns;
the loop keeps reading until the reading exceeds t1 by at least 1.0E-6
seconds and yields the accepted reading with the next read position. Fuel
bounds the number of reads, standing for the loop's termination premise
that the clock eventually advances. -/
def spin (reads : Nat → ℚ) (t1 : ℚ) : Nat → Nat → Option (ℚ × Nat)
  | _, 0 => none
  | pos, fuel + 1 =>
    if reads pos - t1 < 1 / 1000000 then spin reads t1 (pos + 1) fuel
    else some (reads pos, pos + 1)

/-- The sampling loop of checktick: count iterations of
t1 = mysecond(); while ((t2 = mysecond()) - t1 < 1.0E-6); timesfound[i] = t2,
returning the collected samples and the final read position. -/
def collectTimes (reads : Nat → ℚ) (fuel : Nat) : Nat → Nat → Option (List ℚ × Nat)
  | pos, 0 => some ([], pos)
  | pos, count + 1 =>
    match spin reads (reads pos) (pos + 1) fuel with
    | none => none
    | some (t2, pos2) =>
      match collectTimes reads fuel pos2 count with
      | none => none
      | some (rest, pos3) => some (t2 :: rest, pos3)

/-- The summary loop of checktick: minDelta = 1000000, then for i = 1..M-1,
Delta = (int) (1.0E6 * (timesfound[i] - timesfound[i-1])) and
minDelta = MIN(minDelta, MAX(Delta, 0)). -/
def minDelta (timesfound : List ℚ) : Int :=
  (List.zipWith (fun prev next => cTrunc (1000000 * (next - prev)))
    timesfound (timesfound.drop 1)).foldl (fun m d => min m (max d 0)) 1000000

/-- checktick: collect M samples, then return minDelta. -/
def checktick (reads : Nat → ℚ) (fuel : Nat) : Option Int :=
  (collectTimes reads fuel 0 M).map (fun p => minDelta p.1)

/-- main's use of the calibrator: quantum = checktick(), replaced by 1 when
the returned value is below 1. -/
def quantumOf (q : Int) : Int := if 1 ≤ q then q else 1

/-- The clamped, truncated consecutive differences of the sample list, in
microseconds. -/
def clampedDeltas (timesfound : List ℚ) : List Int :=
  (List.zipWith (fun prev next => cTrunc (1000000 * (next - prev)))
    timesfound (timesfound.drop 1)).map (fun d => max d 0)

/-- A clock that advances by two seconds at every reading. -/
def reads2 (k : Nat) : ℚ := 2 * k

/-- The 20 samples checktick collects from reads2. -/
def ts20 : List ℚ :=
  [2, 6, 10, 14, 18, 22, 26, 30, 34, 38, 42, 46, 50, 54, 58, 62, 66, 70,
    74, 78]

theorem streamRound_replicate {T : Type} (F : FPOps T) (scalar : T) (n : Nat)
    (x : ScalarState T) :
    streamRound F scalar (replicateState n x) =
      replicateState n (scalarRound F scalar x) := by
  simp [streamRound, copyKernel, scaleKernel, addKernel, triadKernel,
    replicateState, scalarRound, List.map_replicate]

theorem warmup_initArrays {T : Type} (F : FPOps T) (n : Nat) :
    warmup F (initArrays F n) = replicateState n (scalarWarmup F (scalarInit F)) := by
  simp [warmup, initArrays, replicateState, scalarWarmup, scalarInit,
    List.map_replicate]

/-- C1: for every element count N ≥ 2 and repetition count R ≥ 2, after
initializing A=1.0, B=2.0, C=0.0, the warm-up A = 2*A, and R rounds of
Copy, Scale, Add, Triad with scalar 3.0, every element of A, B, C equals
exactly the validator replay's scalar endpoints aj, bj, cj; this holds for
any interpretation of the arithmetic operations, hence bit-for-bit for the
IEEE operations actually used. -/
theorem executor_matches_validator_replay {T : Type} (F : FPOps T) (n R : Nat)
    (hn : 2 ≤ n) (hR : 2 ≤ R) :
    (streamRun F n R).a = List.replicate n (scalarReplay F R).aj ∧
    (streamRun F n R).b = List.replicate n (scalarReplay F R).bj ∧
    (streamRun F n R).c = List.replicate n (scalarReplay F R).cj := by
  have key : ∀ (k : Nat) (y : ScalarState T),
      (streamRound F F.lit3)^[k] (replicateState n y) =
        replicateState n ((scalarRound F F.lit3)^[k] y) := by
    intro k
    induction k with
    | zero => intro y; rfl
    | succ k ih =>
      intro y
      rw [Function.iterate_succ_apply, Function.iterate_succ_apply,
        streamRound_replicate, ih]
  have h : streamRun F n R = replicateState n (scalarReplay F R) := by
    rw [streamRun, warmup_initArrays, key, scalarReplay]
  rw [h]
  exact ⟨rfl, rfl, rfl⟩

/-- Witness for C1 at n = 2, R = 2: the two executor elements of A both hold
the replayed scalar 450. -/
theorem executor_matches_validator_replay_witness :
    (streamRun intOps 2 2).a = [450, 450] ∧ (scalarReplay intOps 2).aj = 450 := by
  have h := executor_matches_validator_replay intOps 2 2 (by decide) (by decide)
  refine ⟨?_, by decide⟩
  rw [h.1]
  decide

theorem uniformList_replicate {T : Type} (n : Nat) (x : T) :
    UniformList (List.replicate n x) := by
  intro u hu v hv
  rw [List.eq_of_mem_replicate hu, List.eq_of_mem_replicate hv]

theorem UniformList.map {T U : Type} {l : List T} (f : T → U)
    (h : UniformList l) : UniformList (l.map f) := by
  intro x hx y hy
  rcases List.mem_map.mp hx with ⟨u, hu, rfl⟩
  rcases List.mem_map.mp hy with ⟨v, hv, rfl⟩
  rw [h u hu v hv]

theorem exists_of_mem_zipWith {T U V : Type} {f : T → U → V} :
    ∀ {l1 : List T} {l2 : List U} {x : V}, x ∈ List.zipWith f l1 l2 →
      ∃ u ∈ l1, ∃ v ∈ l2, x = f u v := by
  intro l1
  induction l1 with
  | nil => intro l2 x hx; simp at hx
  | cons a l ih =>
    intro l2 x hx
    cases l2 with
    | nil => simp at hx
    | cons b l2 =>
      rcases List.mem_cons.mp hx with h | h
      · exact ⟨a, List.mem_cons_self a l, b, List.mem_cons_self b l2, h⟩
      · rcases ih h with ⟨u, hu, v, hv, rfl⟩
        exact ⟨u, List.mem_cons_of_mem a hu, v, List.mem_cons_of_mem b hv, rfl⟩

theorem UniformList.zipWith {T U V : Type} {l1 : List T} {l2 : List U}
    (f : T → U → V) (h1 : UniformList l1) (h2 : UniformList l2) :
    UniformList (List.zipWith f l1 l2) := by
  intro x hx y hy
  rcases exists_of_mem_zipWith hx with ⟨u, hu, v, hv, rfl⟩
  rcases exists_of_mem_zipWith hy with ⟨u2, hu2, v2, hv2, rfl⟩
  rw [h1 u hu u2 hu2, h2 v hv v2 hv2]

/-- C10: elementwise uniformity is invariant across the run: the initial
arrays are constant, and the warm-up and each of the Copy, Scale, Add, Triad
kernels preserve the property that each of A, B, C is constant across
indices, so between kernels each array is determined by a single scalar. -/
theorem uniformity_invariant {T : Type} (F : FPOps T) (scalar : T) (n : Nat)
    (s : StreamState T) (h : UniformState s) :
    UniformState (initArrays F n) ∧
    UniformState (warmup F s) ∧
    UniformState (copyKernel s) ∧
    UniformState (scaleKernel F scalar s) ∧
    UniformState (addKernel F s) ∧
    UniformState (triadKernel F scalar s) := by
  obtain ⟨ha, hb, hc⟩ := h
  refine ⟨⟨?_, ?_, ?_⟩, ⟨?_, ?_, ?_⟩, ⟨?_, ?_, ?_⟩, ⟨?_, ?_, ?_⟩,
    ⟨?_, ?_, ?_⟩, ⟨?_, ?_, ?_⟩⟩
  · exact uniformList_replicate n F.lit1
  · exact uniformList_replicate n F.lit2
  · exact uniformList_replicate n F.lit0
  · exact ha.map _
  · exact hb
  · exact hc
  · exact ha
  · exact hb
  · exact ha.map _
  · exact ha
  · exact hc.map _
  · exact hc
  · exact ha
  · exact hb
  · exact UniformList.zipWith F.add ha hb
  · exact UniformList.zipWith _ hb hc
  · exact hb
  · exact hc

/-- Witness for C10 at a concrete uniform state over Int. -/
theorem uniformity_invariant_witness :
    UniformState (⟨[5, 5], [7, 7], [9, 9]⟩ : StreamState Int) ∧
    UniformState (triadKernel intOps 3 ⟨[5, 5], [7, 7], [9, 9]⟩) := by
  refine ⟨by decide, ?_⟩
  exact (uniformity_invariant intOps 3 2 ⟨[5, 5], [7, 7], [9, 9]⟩
    (by decide)).2.2.2.2.2

theorem streamAbs_eq_abs (x : ℚ) : streamAbs x = |x| := by
  unfold streamAbs
  by_cases h : x ≥ 0
  · rw [if_pos h, abs_of_nonneg h]
  · rw [if_neg h, abs_of_neg (lt_of_not_ge h)]

theorem foldl_add_eq_sum (f : ℚ → ℚ) (l : List ℚ) (s : ℚ) :
    l.foldl (fun acc x => acc + f x) s = s + (l.map f).sum := by
  induction l generalizing s with
  | nil => simp
  | cons x l ih => simp [ih, add_assoc]

/-- C2: each array X fails exactly when |avgAbsErr_X / e_X| > ε with
avgAbsErr_X = (Σ |X[i] - e_X|) / elementCount and ε = 1e-6 for 4-byte
elements and 1e-13 for 8-byte elements; a failed array reports the count of
elements with |X[i]/e_X - 1| > ε (no count is reported otherwise); and the
overall outcome fails (err ≠ 0) iff at least one array fails. -/
theorem validator_check_spec (bytesPerWord R n : Nat) (a b c : List ℚ)
    (hn : 0 < n) (hbw : bytesPerWord = 4 ∨ bytesPerWord = 8) :
    (checkSTREAMresults bytesPerWord R n a b c).epsilon =
      (if bytesPerWord = 4 then (1 / 1000000 : ℚ) else 1 / 10000000000000) ∧
    ((checkSTREAMresults bytesPerWord R n a b c).aFailed = true ↔
      |((a.map (fun x => |x - (scalarReplay ratOps R).aj|)).sum / (n : ℚ)) /
          (scalarReplay ratOps R).aj| >
        (if bytesPerWord = 4 then (1 / 1000000 : ℚ) else 1 / 10000000000000)) ∧
    ((checkSTREAMresults bytesPerWord R n a b c).bFailed = true ↔
      |((b.map (fun x => |x - (scalarReplay ratOps R).bj|)).sum / (n : ℚ)) /
          (scalarReplay ratOps R).bj| >
        (if bytesPerWord = 4 then (1 / 1000000 : ℚ) else 1 / 10000000000000)) ∧
    ((checkSTREAMresults bytesPerWord R n a b c).cFailed = true ↔
      |((c.map (fun x => |x - (scalarReplay ratOps R).cj|)).sum / (n : ℚ)) /
          (scalarReplay ratOps R).cj| >
        (if bytesPerWord = 4 then (1 / 1000000 : ℚ) else 1 / 10000000000000)) ∧
    ((checkSTREAMresults bytesPerWord R n a b c).aErrCount =
      if (checkSTREAMresults bytesPerWord R n a b c).aFailed then
        some (a.countP (fun x => decide (|x / (scalarReplay ratOps R).aj - 1| >
          (if bytesPerWord = 4 then (1 / 1000000 : ℚ) else 1 / 10000000000000))))
      else none) ∧
    ((checkSTREAMresults bytesPerWord R n a b c).bErrCount =
      if (checkSTREAMresults bytesPerWord R n a b c).bFailed then
        some (b.countP (fun x => decide (|x / (scalarReplay ratOps R).bj - 1| >
          (if bytesPerWord = 4 then (1 / 1000000 : ℚ) else 1 / 10000000000000))))
      else none) ∧
    ((checkSTREAMresults bytesPerWord R n a b c).cErrCount =
      if (checkSTREAMresults bytesPerWord R n a b c).cFailed then
        some (c.countP (fun x => decide (|x / (scalarReplay ratOps R).cj - 1| >
          (if bytesPerWord = 4 then (1 / 1000000 : ℚ) else 1 / 10000000000000))))
      else none) ∧
    (¬(checkSTREAMresults bytesPerWord R n a b c).err = 0 ↔
      ((checkSTREAMresults bytesPerWord R n a b c).aFailed = true ∨
       (checkSTREAMresults bytesPerWord R n a b c).bFailed = true ∨
       (checkSTREAMresults bytesPerWord R n a b c).cFailed = true)) := by
  have heps : (if bytesPerWord = 4 then (1 / 1000000 : ℚ)
      else if bytesPerWord = 8 then 1 / 10000000000000 else 1 / 1000000) =
      (if bytesPerWord = 4 then (1 / 1000000 : ℚ) else 1 / 10000000000000) := by
    rcases hbw with h | h <;> simp [h]
  simp only [checkSTREAMresults, foldl_add_eq_sum, zero_add, streamAbs_eq_abs,
    heps]
  refine ⟨by trivial, by simp, by simp, by simp, by trivial, by trivial,
    by trivial, ?_⟩
  rcases haf : decide (|((a.map (fun x => |x - (scalarReplay ratOps R).aj|)).sum /
      (n : ℚ)) / (scalarReplay ratOps R).aj| >
      (if bytesPerWord = 4 then (1 / 1000000 : ℚ) else 1 / 10000000000000)) <;>
    rcases hbf : decide (|((b.map (fun x => |x - (scalarReplay ratOps R).bj|)).sum /
      (n : ℚ)) / (scalarReplay ratOps R).bj| >
      (if bytesPerWord = 4 then (1 / 1000000 : ℚ) else 1 / 10000000000000)) <;>
    rcases hcf : decide (|((c.map (fun x => |x - (scalarReplay ratOps R).cj|)).sum /
      (n : ℚ)) / (scalarReplay ratOps R).cj| >
      (if bytesPerWord = 4 then (1 / 1000000 : ℚ) else 1 / 10000000000000)) <;>
    simp

/-- Witness for C2: a passing double-precision run with R = 2, n = 1. -/
theorem validator_check_spec_witness :
    (0 : Nat) < 1 ∧
    (¬(checkSTREAMresults 8 2 1 [450] [90] [120]).err = 0 ↔
      ((checkSTREAMresults 8 2 1 [450] [90] [120]).aFailed = true ∨
       (checkSTREAMresults 8 2 1 [450] [90] [120]).bFailed = true ∨
       (checkSTREAMresults 8 2 1 [450] [90] [120]).cFailed = true)) :=
  ⟨by decide,
    (validator_check_spec 8 2 1 [450] [90] [120] (by decide)
      (Or.inr rfl)).2.2.2.2.2.2.2⟩

theorem foldl_min_le {α : Type} [LinearOrder α] :
    ∀ (l : List α) (s : α), l.foldl min s ≤ s ∧ ∀ x ∈ l, l.foldl min s ≤ x := by
  intro l
  induction l with
  | nil => intro s; exact ⟨le_refl s, by simp⟩
  | cons x l ih =>
    intro s
    have h := ih (min s x)
    refine ⟨le_trans h.1 (min_le_left s x), ?_⟩
    intro y hy
    rcases List.mem_cons.mp hy with rfl | hy
    · exact le_trans h.1 (min_le_right s y)
    · exact h.2 y hy

theorem foldl_min_eq_or_mem {α : Type} [LinearOrder α] :
    ∀ (l : List α) (s : α), l.foldl min s = s ∨ l.foldl min s ∈ l := by
  intro l
  induction l with
  | nil => intro s; exact Or.inl rfl
  | cons x l ih =>
    intro s
    rcases ih (min s x) with h | h
    · rcases min_choice s x with hc | hc
      · exact Or.inl (by rw [List.foldl_cons, h, hc])
      · exact Or.inr (by rw [List.foldl_cons, h, hc]; exact List.mem_cons_self x l)
    · exact Or.inr (List.mem_cons_of_mem x h)

theorem foldl_min_mem {α : Type} [LinearOrder α] (l : List α) (s : α)
    (hne : l ≠ []) (hub : ∀ x ∈ l, x ≤ s) : l.foldl min s ∈ l := by
  rcases foldl_min_eq_or_mem l s with h | h
  · rcases List.exists_mem_of_ne_nil l hne with ⟨x, hx⟩
    have h1 := (foldl_min_le l s).2 x hx
    have h2 := hub x hx
    rw [h] at h1 ⊢
    rw [le_antisymm h2 h1] at hx
    exact hx
  · exact h

/-- C3: for each kernel the reported bandwidth equals
1e-6 * bytesMoved / minTime, where minTime is the minimum timing over
repetitions 1..R-1 (repetition 0 excluded) and bytesMoved is twice the
per-buffer byte size for Copy and Scale and three times it for Add and
Triad; with 8-byte elements, 10,000,000 elements and min Copy time 0.01 s
the reported Copy bandwidth is 16,000 MB/s. -/
theorem reporter_bandwidth_spec (R : Nat) (bufferBytes : ℚ) (times : List ℚ)
    (hlen : times.length = R) (hR : 2 ≤ R)
    (hb : ∀ x ∈ times.drop 1, x ≤ FLT_MAX) :
    (minTime times ∈ times.drop 1 ∧ ∀ x ∈ times.drop 1, minTime times ≤ x) ∧
    bandwidth 0 bufferBytes times =
      1 / 1000000 * (2 * bufferBytes) / minTime times ∧
    bandwidth 1 bufferBytes times =
      1 / 1000000 * (2 * bufferBytes) / minTime times ∧
    bandwidth 2 bufferBytes times =
      1 / 1000000 * (3 * bufferBytes) / minTime times ∧
    bandwidth 3 bufferBytes times =
      1 / 1000000 * (3 * bufferBytes) / minTime times ∧
    bandwidth 0 80000000 [1, 1 / 100] = 16000 := by
  have hne : times.drop 1 ≠ [] := by
    have : (times.drop 1).length = R - 1 := by
      rw [List.length_drop, hlen]
    intro hc
    rw [hc] at this
    simp at this
    omega
  refine ⟨⟨foldl_min_mem _ _ hne hb, (foldl_min_le _ _).2⟩, rfl, rfl, rfl, rfl, ?_⟩
  norm_num [bandwidth, minTime, streamBytes, FLT_MAX]

/-- Witness for C3 with R = 2, times [1, 1/100], buffer of 80,000,000 bytes. -/
theorem reporter_bandwidth_spec_witness :
    minTime [1, 1 / 100] ∈ [(1 : ℚ) / 100] ∧
    bandwidth 0 80000000 [1, 1 / 100] = 16000 := by
  have h := reporter_bandwidth_spec 2 80000000 [1, 1 / 100] rfl (by decide)
    (by
      intro x hx
      simp at hx
      rw [hx]
      norm_num [FLT_MAX])
  exact ⟨h.1.1, h.2.2.2.2.2⟩

theorem ldiff_mask (m : Nat) : Nat.ldiff m 4095 = 4096 * (m / 4096) := by
  have h1 : (4095 : Nat) = 2 ^ 12 - 1 := by norm_num
  have h2 : 4096 * (m / 4096) = m >>> 12 <<< 12 := by
    rw [Nat.shiftLeft_eq, Nat.shiftRight_eq_div_pow, Nat.mul_comm]
    try norm_num
  apply Nat.eq_of_testBit_eq
  intro i
  rw [Nat.testBit_ldiff, h1, Nat.testBit_two_pow_sub_one, h2,
    Nat.testBit_shiftLeft, Nat.testBit_shiftRight]
  by_cases h : 12 ≤ i
  · have hi : 12 + (i - 12) = i := by omega
    have hlt : ¬ i < 12 := by omega
    simp [h, hi, hlt]
  · have hlt : i < 12 := by omega
    simp [h, hlt]

/-- In two's complement, the C expression x & (~0xFFF) clears the low 12
bits; on a nonnegative value this is Int.land with -4096. -/
theorem int_land_mask (m : Nat) :
    Int.land (m : ℤ) (-4096) = ((4096 * (m / 4096) : Nat) : ℤ) := by
  have hneg : (-4096 : ℤ) = Int.negSucc 4095 := by decide
  rw [hneg]
  show ((Nat.ldiff m 4095 : Nat) : ℤ) = _
  rw [ldiff_mask]

theorem int_land_mask_bounds (o : Int) (ho : 0 ≤ o) :
    4096 ∣ Int.land o (-4096) ∧ Int.land o (-4096) ≤ o ∧
      o - Int.land o (-4096) < 4096 := by
  obtain ⟨m, rfl⟩ : ∃ m : Nat, o = (m : ℤ) :=
    ⟨o.toNat, (Int.toNat_of_nonneg ho).symm⟩
  rw [int_land_mask]
  have hdm : 4096 * (m / 4096) + m % 4096 = m := Nat.div_add_mod m 4096
  have hlt : m % 4096 < 4096 := Nat.mod_lt m (by norm_num)
  refine ⟨⟨((m / 4096 : Nat) : ℤ), by push_cast; ring⟩, ?_, ?_⟩ <;>
    push_cast <;> omega

/-- Closed-form evaluation of pageRound on a nonnegative concrete size
(Nat.bitwise is defined by well-founded recursion, so the kernel does not
evaluate Int.land directly). -/
theorem pageRound_nat (m : Nat) :
    pageRound (m : ℤ) = ((4096 * ((m + 4095) / 4096) : Nat) : ℤ) := by
  show Int.land ((m : ℤ) + 4095) (-4096) = _
  have h : ((m : ℤ) + 4095) = (((m + 4095 : Nat) : Nat) : ℤ) := by push_cast; ring
  rw [h, int_land_mask]

/-- Closed-form evaluation of pageTrunc on a nonnegative concrete offset. -/
theorem pageTrunc_nat (m : Nat) :
    pageTrunc (m : ℤ) = ((4096 * (m / 4096) : Nat) : ℤ) := by
  show Int.land ((m : ℤ)) (-4096) = _
  rw [int_land_mask]

/-- C4: for every positive requested byte size s (within ssize_t range), the
provisioned per-buffer size is s rounded up to the next multiple of the
4096-byte page size: it is a multiple of 4096 lying in [s, s + 4096); in
particular a 1-byte request yields 4096 and a 4096-byte request stays 4096. -/
theorem pageRound_spec (s : Int) (hs : 0 < s) (hrange : s + 4095 < 2 ^ 63) :
    (4096 ∣ pageRound s ∧ s ≤ pageRound s ∧ pageRound s < s + 4096) ∧
    pageRound 1 = 4096 ∧ pageRound 4096 = 4096 := by
  have h := int_land_mask_bounds (s + 4095) (by omega)
  have h1 : pageRound 1 = 4096 := by
    rw [show (1 : ℤ) = ((1 : Nat) : ℤ) by norm_num, pageRound_nat]
    try norm_num
  have h4096 : pageRound 4096 = 4096 := by
    rw [show (4096 : ℤ) = ((4096 : Nat) : ℤ) by norm_num, pageRound_nat]
    try norm_num
  unfold pageRound
  exact ⟨⟨h.1, by omega, by omega⟩, h1, h4096⟩

/-- Witness for C4 at s = 1. -/
theorem pageRound_spec_witness :
    (0 : ℤ) < 1 ∧ pageRound 1 = 4096 ∧ pageRound 4096 = 4096 :=
  ⟨by decide, (pageRound_spec 1 (by decide) (by norm_num)).2⟩

theorem offsetDefaulted_pos (e : Env) : 0 < offsetDefaulted e := by
  unfold offsetDefaulted
  by_cases h : offsetBase e ≤ 0
  · rw [if_pos h]; norm_num
  · rw [if_neg h]; omega

/-- C5: with a device path given and the device opened, the mapping offset
defaults to 0x1_0000_0000 when the offset argument is absent or
non-positive, is otherwise the given argument, is truncated down to a
multiple of the page size, and the three mmap calls request offsets
offset, offset + byteSize, offset + 2*byteSize, where byteSize is the
page-rounded buffer size. -/
theorem device_mapping_spec (e : Env) (hdev : 2 ≤ e.nargs)
    (hopen : ¬ e.openRes < 0) :
    ((e.nargs < 3 ∨ e.offArg ≤ 0) → offsetDefaulted e = 4294967296) ∧
    (3 ≤ e.nargs → 0 < e.offArg → offsetDefaulted e = e.offArg) ∧
    (4096 ∣ effectiveOffset e ∧ effectiveOffset e ≤ offsetDefaulted e ∧
      offsetDefaulted e - effectiveOffset e < 4096) ∧
    (mainModel e).bufferSize =
      pageRound (if e.sizeArg ≤ 0 then defaultBufferBytes else e.sizeArg) ∧
    (mainModel e).mapRequests =
      [effectiveOffset e, effectiveOffset e + (mainModel e).bufferSize,
        effectiveOffset e + 2 * (mainModel e).bufferSize] := by
  have h1 : 1 ≤ e.nargs := by omega
  refine ⟨?_, ?_, ?_, ?_, ?_⟩
  · intro h
    unfold offsetDefaulted offsetBase
    rcases h with h | h
    · rw [if_neg (show ¬ 3 ≤ e.nargs by omega)]
      norm_num
    · by_cases h3 : 3 ≤ e.nargs
      · rw [if_pos h3, if_pos h]
      · rw [if_neg h3]
        norm_num
  · intro h3 hpos
    unfold offsetDefaulted offsetBase
    rw [if_pos h3, if_neg (by omega)]
  · exact int_land_mask_bounds (offsetDefaulted e)
      (le_of_lt (offsetDefaulted_pos e))
  · simp [mainModel, hdev, hopen, h1]
  · simp [mainModel, hdev, hopen, h1]

/-- Witness for C5: size 5000 rounds to 8192 and the three mappings are
requested at 0x1_0000_0000 + {0, 8192, 16384}. -/
theorem device_mapping_spec_witness :
    (mainModel envDevice).mapRequests =
      [4294967296, 4294975488, 4294983680] := by
  have h := device_mapping_spec envDevice (by decide) (by decide)
  have hoff : effectiveOffset envDevice = 4294967296 := by
    have hd : offsetDefaulted envDevice = 4294967296 := h.1 (Or.inr (by decide))
    unfold effectiveOffset
    rw [hd, show (4294967296 : ℤ) = ((4294967296 : Nat) : ℤ) by norm_num,
      pageTrunc_nat]
    try norm_num
  have hbs : (mainModel envDevice).bufferSize = 8192 := by
    rw [h.2.2.2.1]
    rw [if_neg (by decide)]
    have hs : envDevice.sizeArg = ((5000 : Nat) : ℤ) := rfl
    rw [hs, pageRound_nat]
    try norm_num
  rw [h.2.2.2.2, hoff, hbs]
  norm_num

/-- C7: with a device path whose open fails, main prints an error and
returns 0 immediately: no mapping requests, no kernels, no validation, no
teardown; and every run of main exits with status 0, validation outcome
included. -/
theorem open_failure_exit_spec (e : Env) (hdev : 2 ≤ e.nargs)
    (hfail : e.openRes < 0) :
    (mainModel e).exitCode = 0 ∧ (mainModel e).earlyReturn = true ∧
    (mainModel e).ranKernels = false ∧ (mainModel e).validated = false ∧
    (mainModel e).mapRequests = [] ∧ (mainModel e).munmapCalls = [] ∧
    (∀ e2 : Env, (mainModel e2).exitCode = 0) := by
  have hall : ∀ e2 : Env, (mainModel e2).exitCode = 0 := by
    intro e2
    unfold mainModel
    by_cases h1 : 2 ≤ e2.nargs <;> by_cases h2 : e2.openRes < 0 <;>
      simp [h1, h2]
  refine ⟨?_, ?_, ?_, ?_, ?_, ?_, hall⟩ <;> simp [mainModel, hdev, hfail]

/-- Witness for C7. -/
theorem open_failure_exit_spec_witness :
    (mainModel envOpenFail).exitCode = 0 ∧
    (mainModel envOpenFail).ranKernels = false :=
  ⟨(open_failure_exit_spec envOpenFail (by decide) (by decide)).1,
    (open_failure_exit_spec envOpenFail (by decide) (by decide)).2.2.1⟩

/-- C6 counterexample: with a device present, a successful open, and the
mmap calls failing (returning MAP_FAILED), the program does not print a
diagnostic and terminate: it takes no early return and proceeds into
kernel execution with the failed mapping installed as the array pointer. -/
theorem mapping_failure_counterexample :
    envMapFail.mmapRes 0 = MAP_FAILED ∧
    (mainModel envMapFail).earlyReturn = false ∧
    (mainModel envMapFail).ranKernels = true ∧
    (mainModel envMapFail).aPtr = MAP_FAILED ∧
    (mainModel envMapFail).exitCode = 0 := by decide

/-- C6 amended: a failed memory mapping is not detected at all: mmap
returns MAP_FAILED, which is not NULL, so even the NULL fallback to
aligned_alloc does not engage; the program prints no diagnostic, does not
terminate, and continues into kernel execution and validation with the
failed mapping installed, finally exiting with status 0. -/
theorem mapping_failure_not_fatal (e : Env) (hdev : 2 ≤ e.nargs)
    (hopen : ¬ e.openRes < 0) (hfail : e.mmapRes 0 = MAP_FAILED) :
    (mainModel e).earlyReturn = false ∧ (mainModel e).ranKernels = true ∧
    (mainModel e).validated = true ∧ (mainModel e).aPtr = MAP_FAILED ∧
    (mainModel e).exitCode = 0 := by
  simp [mainModel, hdev, hopen, hfail, MAP_FAILED, NULL]

/-- Witness for the amended C6. -/
theorem mapping_failure_not_fatal_witness :
    ¬ envMapFail.openRes < 0 ∧ (mainModel envMapFail).ranKernels = true :=
  ⟨by decide,
    (mapping_failure_not_fatal envMapFail (by decide) (by decide)
      (by decide)).2.1⟩

/-- C8 counterexample: a no-argument, heap-backed run completes kernels and
validation yet performs no teardown at all: no free, no munmap, no close;
the heap allocations are never released, contradicting the claimed
mode-matching teardown. -/
theorem teardown_counterexample :
    (mainModel envHeapNoArgs).ranKernels = true ∧
    (mainModel envHeapNoArgs).validated = true ∧
    (mainModel envHeapNoArgs).freeCalls = [] ∧
    (mainModel envHeapNoArgs).munmapCalls = [] ∧
    (mainModel envHeapNoArgs).closedFd = false := by decide

/-- C8 amended: teardown still happens at most once, after validation and
reporting, but it is guarded by argc > 1 rather than by the provisioning
mode: with at least one argument the three array pointers are passed to
munmap regardless of backing, and close(fid) runs when fid is nonzero
(with no device argument fid is uninitialized garbage); free is never
called on the heap allocations, and with no arguments no teardown happens
at all. -/
theorem teardown_spec (e : Env) (hopen : ¬ e.openRes < 0) :
    (mainModel e).freeCalls = [] ∧
    (mainModel e).validated = true ∧
    (2 ≤ e.nargs →
      (mainModel e).munmapCalls =
        [(mainModel e).aPtr, (mainModel e).bPtr, (mainModel e).cPtr] ∧
      (mainModel e).closedFd = decide (¬ e.openRes = 0)) ∧
    (e.nargs = 1 →
      (mainModel e).munmapCalls =
        [(mainModel e).aPtr, (mainModel e).bPtr, (mainModel e).cPtr] ∧
      (mainModel e).closedFd = decide (¬ e.fidGarbage = 0)) ∧
    (e.nargs = 0 →
      (mainModel e).munmapCalls = [] ∧ (mainModel e).closedFd = false) := by
  by_cases h2 : 2 ≤ e.nargs
  · refine ⟨by simp [mainModel, h2, hopen], by simp [mainModel, h2, hopen],
      ?_, ?_, ?_⟩
    · intro _
      constructor <;> simp [mainModel, h2, hopen]
    · intro h
      omega
    · intro h
      omega
  · by_cases h1 : 1 ≤ e.nargs
    · refine ⟨by simp [mainModel, h2, h1], by simp [mainModel, h2, h1],
        ?_, ?_, ?_⟩
      · intro h
        omega
      · intro _
        constructor <;> simp [mainModel, h2, h1]
      · intro h
        omega
    · refine ⟨by simp [mainModel, h2, h1], by simp [mainModel, h2, h1],
        ?_, ?_, ?_⟩
      · intro h
        omega
      · intro h
        omega
      · intro _
        constructor <;> simp [mainModel, h2, h1]

/-- Witness for the amended C8. -/
theorem teardown_spec_witness :
    (mainModel envHeapOneArg).freeCalls = [] ∧
    (mainModel envHeapOneArg).munmapCalls =
      [(mainModel envHeapOneArg).aPtr, (mainModel envHeapOneArg).bPtr,
        (mainModel envHeapOneArg).cPtr] :=
  ⟨(teardown_spec envHeapOneArg (by decide)).1,
    ((teardown_spec envHeapOneArg (by decide)).2.2.2.1 rfl).1⟩

theorem cTrunc_intCast (z : ℤ) : cTrunc ((z : ℚ)) = z := by
  unfold cTrunc
  by_cases h : ((z : ℚ)) < 0
  · rw [if_pos h, Int.ceil_intCast]
  · rw [if_neg h, Int.floor_intCast]

theorem minDelta_eq_foldl (ts : List ℚ) :
    minDelta ts = (clampedDeltas ts).foldl min 1000000 := by
  unfold minDelta clampedDeltas
  rw [List.foldl_map]

theorem foldl_min_mem_cons {α : Type} [LinearOrder α] (l : List α) (s : α) :
    l.foldl min s ∈ s :: l := by
  rcases foldl_min_eq_or_mem l s with h | h
  · rw [h]
    exact List.mem_cons_self s l
  · exact List.mem_cons_of_mem s h

theorem spin_sound (reads : Nat → ℚ) (t1 : ℚ) :
    ∀ (fuel pos : Nat) (t2 : ℚ) (pos2 : Nat),
      spin reads t1 pos fuel = some (t2, pos2) →
      1 / 1000000 ≤ t2 - t1 ∧ ∃ k, t2 = reads k ∧ pos ≤ k ∧ pos2 = k + 1 := by
  intro fuel
  induction fuel with
  | zero =>
    intro pos t2 pos2 h
    simp [spin] at h
  | succ fuel ih =>
    intro pos t2 pos2 h
    rw [spin] at h
    by_cases hc : reads pos - t1 < 1 / 1000000
    · rw [if_pos hc] at h
      rcases ih (pos + 1) t2 pos2 h with ⟨h1, k, hk, hpk, hp2⟩
      exact ⟨h1, k, hk, by omega, hp2⟩
    · rw [if_neg hc] at h
      have h' := Option.some.inj h
      obtain ⟨rfl, rfl⟩ : reads pos = t2 ∧ pos + 1 = pos2 :=
        ⟨congrArg Prod.fst h', congrArg Prod.snd h'⟩
      exact ⟨by linarith [not_lt.mp hc], pos, rfl, le_refl pos, rfl⟩

theorem collectTimes_sound (reads : Nat → ℚ)
    (mono : ∀ i j : Nat, i ≤ j → reads i ≤ reads j) (fuel : Nat) :
    ∀ (count pos : Nat) (ts : List ℚ) (pos3 : Nat),
      collectTimes reads fuel pos count = some (ts, pos3) →
      ts.length = count ∧
      List.Chain (fun x y : ℚ => x + 1 / 1000000 ≤ y) (reads pos) ts := by
  intro count
  induction count with
  | zero =>
    intro pos ts pos3 h
    rw [collectTimes] at h
    have h' := Option.some.inj h
    obtain ⟨rfl, rfl⟩ : ([] : List ℚ) = ts ∧ pos = pos3 :=
      ⟨congrArg Prod.fst h', congrArg Prod.snd h'⟩
    exact ⟨rfl, List.Chain.nil⟩
  | succ count ih =>
    intro pos ts pos3 h
    rw [collectTimes] at h
    split at h
    · exact absurd h (by simp)
    · rename_i t2 pos2 hspin
      split at h
      · exact absurd h (by simp)
      · rename_i rest pos3b hrec
        have h' := Option.some.inj h
        obtain ⟨rfl, rfl⟩ : t2 :: rest = ts ∧ pos3b = pos3 :=
          ⟨congrArg Prod.fst h', congrArg Prod.snd h'⟩
        rcases spin_sound reads (reads pos) fuel (pos + 1) t2 pos2 hspin with
          ⟨hge, k, hk, hpk, hp2⟩
        rcases ih pos2 rest pos3b hrec with ⟨hlen, hchain⟩
        refine ⟨by simp [hlen], ?_⟩
        refine List.Chain.cons (by linarith) ?_
        have ht2le : t2 ≤ reads pos2 := by
          rw [hk, hp2]
          exact mono k (k + 1) (by omega)
        cases hchain with
        | nil => exact List.Chain.nil
        | cons hstep htail =>
          exact List.Chain.cons (by linarith) htail

theorem mem_zipWith_consecutive (g : ℚ → ℚ → Int)
    (rel : ℚ → ℚ → Prop) :
    ∀ (ts : List ℚ), List.Chain' rel ts →
      ∀ d ∈ List.zipWith (fun prev next => g prev next) ts (ts.drop 1),
        ∃ p n, rel p n ∧ d = g p n := by
  intro ts
  induction ts with
  | nil =>
    intro _ d hd
    simp at hd
  | cons a ts ih =>
    intro hch d hd
    cases ts with
    | nil => simp at hd
    | cons b ts2 =>
      have hd' : d = g a b ∨
          d ∈ List.zipWith (fun prev next => g prev next) (b :: ts2)
            ((b :: ts2).drop 1) := by
        simpa using List.mem_cons.mp hd
      rcases hd' with rfl | hmem
      · exact ⟨a, b, (List.chain'_cons.mp hch).1, rfl⟩
      · exact ih (List.chain'_cons.mp hch).2 d hmem

theorem minDelta_ge_one (ts : List ℚ)
    (hch : List.Chain' (fun x y : ℚ => x + 1 / 1000000 ≤ y) ts) :
    1 ≤ minDelta ts := by
  rw [minDelta_eq_foldl]
  unfold clampedDeltas
  rcases List.mem_cons.mp (foldl_min_mem_cons
    ((List.zipWith (fun prev next => cTrunc (1000000 * (next - prev))) ts
      (ts.drop 1)).map (fun d => max d 0)) 1000000) with h | h
  · rw [h]
    norm_num
  · rcases List.mem_map.mp h with ⟨d, hd, hmax⟩
    rcases mem_zipWith_consecutive _ _ ts hch d hd with ⟨p, n, hrel, rfl⟩
    have h1 : (1 : ℚ) ≤ 1000000 * (n - p) := by linarith
    have h2 : (1 : Int) ≤ cTrunc (1000000 * (n - p)) := by
      unfold cTrunc
      rw [if_neg (show ¬ (1000000 : ℚ) * (n - p) < 0 by linarith)]
      exact Int.le_floor.mpr (by exact_mod_cast h1)
    rw [← hmax]
    exact le_trans h2 (le_max_left _ 0)

/-- C9 amended: the calibrator's 20 samples, each obtained by spinning until
the clock advanced at least 1 microsecond past the fresh reading taken at
the start of the spin, are strictly increasing for a monotone clock; the
returned value is the minimum of 1,000,000 (the fold's initial value) and
the clamped, truncated consecutive differences in microseconds — the cap
at 1,000,000 is the one amendment to the claim; the returned value is at
least 1, the reported quantum equals it, and main substitutes 1 for any
value below 1. -/
theorem checktick_spec (reads : Nat → ℚ)
    (mono : ∀ i j : Nat, i ≤ j → reads i ≤ reads j) (fuel : Nat)
    (ts : List ℚ) (pos3 : Nat)
    (hcoll : collectTimes reads fuel 0 M = some (ts, pos3)) :
    ts.length = 20 ∧
    List.Pairwise (fun x y : ℚ => x < y) ts ∧
    checktick reads fuel = some (minDelta ts) ∧
    minDelta ts ∈ (1000000 : Int) :: clampedDeltas ts ∧
    (∀ x ∈ (1000000 : Int) :: clampedDeltas ts, minDelta ts ≤ x) ∧
    1 ≤ minDelta ts ∧
    quantumOf (minDelta ts) = minDelta ts ∧
    (∀ q : Int, q < 1 → quantumOf q = 1) := by
  have hs := collectTimes_sound reads mono fuel M 0 ts pos3 hcoll
  have hch0 : List.Chain' (fun x y : ℚ => x + 1 / 1000000 ≤ y)
      (reads 0 :: ts) := hs.2
  have hch' : List.Chain' (fun x y : ℚ => x + 1 / 1000000 ≤ y) ts := hch0.tail
  have hpos : (1 : Int) ≤ minDelta ts := minDelta_ge_one ts hch'
  haveI : IsTrans ℚ (fun x y : ℚ => x < y) :=
    ⟨fun _ _ _ h1 h2 => lt_trans h1 h2⟩
  have hltch : List.Chain' (fun x y : ℚ => x < y) ts :=
    hch'.imp (fun a b hab => by linarith)
  refine ⟨hs.1, List.chain'_iff_pairwise.mp hltch, ?_, ?_, ?_, hpos, ?_, ?_⟩
  · rw [checktick, hcoll]
    rfl
  · rw [minDelta_eq_foldl]
    exact foldl_min_mem_cons (clampedDeltas ts) 1000000
  · intro x hx
    rcases List.mem_cons.mp hx with rfl | hx
    · rw [minDelta_eq_foldl]
      exact (foldl_min_le (clampedDeltas ts) 1000000).1
    · rw [minDelta_eq_foldl]
      exact (foldl_min_le (clampedDeltas ts) 1000000).2 x hx
  · unfold quantumOf
    rw [if_pos hpos]
  · intro q hq
    unfold quantumOf
    rw [if_neg (by omega)]

theorem collect_reads2_eval : collectTimes reads2 1 0 M = some (ts20, 40) := by
  norm_num [M, ts20, collectTimes, spin, reads2]

theorem clampedDeltas_ts20 : clampedDeltas ts20 = List.replicate 19 4000000 := by
  have hc : cTrunc ((4000000 : ℚ)) = 4000000 := by
    rw [show ((4000000 : ℚ)) = ((4000000 : ℤ) : ℚ) by norm_num, cTrunc_intCast]
  have hm : max (4000000 : Int) 0 = 4000000 := by decide
  norm_num [clampedDeltas, ts20, hc, hm, List.replicate]

/-- C9 counterexample: on a clock advancing two seconds per reading, every
clamped, truncated consecutive difference of the 20 collected samples is
4,000,000 microseconds, yet checktick returns 1,000,000 — the fold's
initial value — which is not the claimed minimum of the consecutive
differences (it is not even one of them). -/
theorem checktick_cap_counterexample :
    checktick reads2 1 = some 1000000 ∧
    clampedDeltas ts20 = List.replicate 19 4000000 ∧
    ¬ (1000000 : Int) ∈ clampedDeltas ts20 := by
  have hmin : minDelta ts20 = 1000000 := by
    rw [minDelta_eq_foldl, clampedDeltas_ts20]
    decide
  refine ⟨?_, clampedDeltas_ts20, ?_⟩
  · rw [checktick, collect_reads2_eval]
    simp [hmin]
  · rw [clampedDeltas_ts20]
    decide

/-- Witness for the amended C9, on the two-second clock. -/
theorem checktick_spec_witness :
    checktick reads2 1 = some (minDelta ts20) ∧ (1 : Int) ≤ minDelta ts20 := by
  have hmono : ∀ i j : Nat, i ≤ j → reads2 i ≤ reads2 j := by
    intro i j hij
    unfold reads2
    have hij' : ((i : ℚ)) ≤ ((j : ℚ)) := by exact_mod_cast hij
    linarith
  have h := checktick_spec reads2 hmono 1 ts20 40 collect_reads2_eval
  exact ⟨h.2.2.1, h.2.2.2.2.2.1⟩

end StreamBench
